import Mathlib

/-!
# Verification of the Evaluation-Tracker autonomous traversal engine

This file gives a shallow embedding, in Lean 4, of the core heuristic
engine of the Evaluation-Tracker repository
(`src/lib/autoEvaluator.ts` and the fatal-error path of
`src/lib/dynamicEvaluator.ts`) and proves properties of it.

Modelling conventions:
* The browser DOM is external to the program.  A page is modelled as the
  snapshot of everything the engine observes on it: paths, headings,
  body text, title, the interactive elements with the attributes the
  engine queries, and which of the fixed blocking-probe selectors have a
  visible match.  A run environment supplies one such snapshot per
  iteration of the main loop, plus the possible session failures
  (browser launch failure, and a crash of the settle wait at the end of
  an iteration), mirroring the try/catch structure of `run`.
* JavaScript strings are Lean `String`s; `x || y` on strings is
  `jsOr` (empty string is falsy); `s.includes(t)` is `jsIncludes`;
  `s.toLowerCase()` is `String.toLower` (all texts involved are ASCII).
* Time-dependent report fields (timestamps, durations, screenshots) are
  not modelled; no claim mentions them.  `uuid` ids are likewise
  omitted.
-/

/-! ## JavaScript string primitives -/

/-- An apostrophe character as a string (several source pattern literals
contain one). -/
def apos : String := ⟨[Char.ofNat 39]⟩

/-- JavaScript `a || b` on strings: the empty string is falsy. -/
def jsOr (a b : String) : String := if a = "" then b else a

/-- JavaScript `a?.x || b` where `a` came back possibly `null`. -/
def jsOrOpt (a : Option String) (b : String) : String := jsOr (a.getD "") b

/-- Test that `p` is an initial segment of `s` (character lists). -/
def charListHead : List Char → List Char → Bool
  | [], _ => true
  | _ :: _, [] => false
  | a :: as, b :: bs => a == b && charListHead as bs

/-- Test that `p` occurs as a contiguous segment of `s` (character lists). -/
def charListSub (p : List Char) : List Char → Bool
  | [] => charListHead p []
  | b :: bs => charListHead p (b :: bs) || charListSub p bs

/-- JavaScript `s.includes(sub)`: substring containment. -/
def jsIncludes (s sub : String) : Bool := charListSub sub.data s.data

/-- JavaScript `s.toLowerCase()` for the ASCII texts involved. -/
def jsToLower (s : String) : String :=
  ⟨s.data.map (fun c =>
    if 65 ≤ c.toNat ∧ c.toNat ≤ 90 then Char.ofNat (c.toNat + 32)
    else c)⟩

/-- A whitespace character (as far as `trim` is concerned here). -/
def isWSChar (c : Char) : Bool :=
  c.toNat == 32 || c.toNat == 9 || c.toNat == 10 || c.toNat == 13

/-- JavaScript `s.trim()`. -/
def jsTrim (s : String) : String :=
  ⟨((s.data.dropWhile isWSChar).reverse.dropWhile isWSChar).reverse⟩

/-- JavaScript `s.substring(0, n)`. -/
def jsTake (s : String) (n : Nat) : String := ⟨s.data.take n⟩

/-- JavaScript `s.startsWith(pre)`. -/
def jsStartsWith (s pre : String) : Bool := charListHead pre.data s.data

/-- JavaScript `array.join(",")`. -/
def joinComma : List String → String
  | [] => ""
  | [x] => x
  | x :: y :: xs => x ++ "," ++ joinComma (y :: xs)

/-- Tokens of a class attribute (split on spaces, as
`classList.contains` sees them). -/
def classTokens : List Char → List Char → List String
  | [], cur => [⟨cur.reverse⟩]
  | c :: rest, cur =>
    if c.toNat == 32 then ⟨cur.reverse⟩ :: classTokens rest []
    else classTokens rest (c :: cur)

theorem charListHead_iff (p s : List Char) :
    charListHead p s = true ↔ p <+: s := by
  induction p generalizing s with
  | nil => simp [charListHead]
  | cons a as ih =>
    cases s with
    | nil => simp [charListHead]
    | cons b bs =>
      simp [charListHead, ih, List.cons_prefix_cons]

theorem charListSub_iff (p s : List Char) :
    charListSub p s = true ↔ p <:+: s := by
  induction s with
  | nil =>
    simp [charListSub, charListHead_iff, List.prefix_nil, List.infix_nil]
  | cons b bs ih =>
    simp only [charListSub, Bool.or_eq_true, charListHead_iff, ih,
      List.infix_cons_iff]

/-- Substring containment is transitive across `jsIncludes`. -/
theorem jsIncludes_trans {s mid sub : String}
    (h1 : jsIncludes s mid = true) (h2 : jsIncludes mid sub = true) :
    jsIncludes s sub = true := by
  simp only [jsIncludes, charListSub_iff] at *
  exact h2.trans h1

/-! ## Pattern tables (`autoEvaluator.ts`, lines 49-217)

The source keeps these as ordered array/object literals; object literals
iterate in insertion order, so `BLOCKING_PATTERNS` is an ordered
association list here. -/

/-- Table `NEXT_BUTTON_PATTERNS` (lines 49-76): phrases that advance the flow,
in priority order. -/
def NEXT_BUTTON_PATTERNS : List String :=
  ["get started", "start", "begin", "let" ++ apos ++ "s go",
   "take assessment", "start assessment", "begin assessment",
   "take quiz", "start quiz", "next", "continue", "proceed", "submit",
   "send", "confirm", "done", "finish", "complete", "tap here",
   "click here", "i agree", "accept", "okay", "ok", "yes", "got it"]

/-- Table `STOP_PATTERNS` (lines 79-93): text of controls that lead to an exit
gate and must not be clicked. -/
def STOP_PATTERNS : List String :=
  ["sign up", "create account", "log in", "login", "sign in",
   "checkout", "payment", "pay now", "purchase", "buy now",
   "add to cart", "schedule", "book appointment"]

/-- Table `BLOCKING_PATTERNS` (lines 96-176): ordered categories of conditions
that require human intervention, each with its substring patterns. -/
def BLOCKING_PATTERNS : List (String × List String) :=
  [("twoFactor",
    ["two-factor", "two factor", "2fa", "2-fa", "authenticator",
     "verification code", "security code", "enter the code",
     "enter code", "6-digit code", "6 digit code", "one-time password",
     "one time password", "otp"]),
   ("emailVerification",
    ["verify your email", "check your email", "email verification",
     "confirm your email", "we sent you an email",
     "we" ++ apos ++ "ve sent you an email", "sent a verification",
     "sent you a link", "click the link in your email",
     "check your inbox", "verification link"]),
   ("smsVerification",
    ["verify your phone", "verify phone number", "sms verification",
     "text verification", "we sent a code to", "sent to your phone",
     "enter the code we sent", "code sent to", "verification text"]),
   ("captcha",
    ["captcha", "i" ++ apos ++ "m not a robot", "i am not a robot",
     "prove you" ++ apos ++ "re human", "prove you are human",
     "human verification", "security check", "recaptcha", "hcaptcha",
     "cloudflare"]),
   ("loginRequired",
    ["please log in", "please login", "please sign in",
     "you must be logged in", "login required", "sign in required",
     "authentication required", "access denied", "unauthorized",
     "session expired"]),
   ("accountWall",
    ["create an account to continue", "sign up to continue",
     "register to continue", "join to continue", "create account to",
     "sign up to see", "register to see"])]

/-- The `reasons` record inside `checkForBlockers` (lines 602-609),
with its `|| "Verification required"` default. -/
def blockReason (t : String) : String :=
  if t = "twoFactor" then "Two-Factor Authentication (2FA) required"
  else if t = "emailVerification" then "Email verification required"
  else if t = "smsVerification" then "SMS/Phone verification required"
  else if t = "captcha" then "CAPTCHA verification required"
  else if t = "loginRequired" then "Login/Authentication required"
  else if t = "accountWall" then "Account creation required to continue"
  else "Verification required"

/-- Table `blockingInputSelectors` (lines 620-633): DOM probes whose visible
presence also blocks. -/
def blockingInputSelectors : List String :=
  ["input[name*=otp]", "input[name*=code]", "input[name*=verification]",
   "input[placeholder*=verification code]",
   "input[placeholder*=enter code]", "input[aria-label*=verification]",
   "input[aria-label*=code]", "class*=captcha", "id*=captcha",
   "iframe[src*=recaptcha]", "iframe[src*=hcaptcha]",
   "iframe[title*=recaptcha]"]

/-- Table `endPatterns` inside `isEndOfFlow` (lines 569-579):
terminal-confirmation phrases. -/
def endPatterns : List String :=
  ["thank you", "thanks for", "we" ++ apos ++ "ll be in touch",
   "we will contact", "your results", "assessment complete",
   "evaluation complete", "you" ++ apos ++ "re all set", "all done"]

/-- Table `DEFAULT_TEST_DATA` (lines 185-217), in object insertion order. -/
def DEFAULT_TEST_DATA : List (String × String) :=
  [("firstName", "Test"), ("first_name", "Test"), ("fname", "Test"),
   ("lastName", "User"), ("last_name", "User"), ("lname", "User"),
   ("name", "Test User"), ("fullName", "Test User"),
   ("full_name", "Test User"), ("email", "test@example.com"),
   ("phone", "5551234567"), ("phoneNumber", "5551234567"),
   ("phone_number", "5551234567"), ("tel", "5551234567"),
   ("mobile", "5551234567"), ("age", "35"),
   ("dateOfBirth", "1989-06-15"), ("dob", "1989-06-15"),
   ("birthdate", "1989-06-15"), ("birthday", "06/15/1989"),
   ("zip", "90210"), ("zipCode", "90210"), ("zip_code", "90210"),
   ("postal", "90210"), ("postalCode", "90210"),
   ("city", "Los Angeles"), ("state", "California"), ("height", "70"),
   ("weight", "180"), ("username", "testuser"),
   ("password", "TestPass123!")]

/-! ## Elements and page snapshots -/

/-- Tag of a DOM element, as far as the engine distinguishes them. -/
inductive ETag
  | button | anchor | inputTag | labelTag | liTag | divTag | other
  deriving DecidableEq, Repr

/-- A DOM element with the attributes the engine queries.  `text` is
`textContent` (empty for `input` elements), `classAttr` the raw class
attribute value, `containsRadio`/`containsCheckbox` whether
`el.querySelector` finds a radio/checkbox input descendant and
`containedChecked` its checked state. -/
structure Elem where
  tag : ETag
  role : String
  typeAttr : String
  valueAttr : String
  classAttr : String
  text : String
  visible : Bool
  enabled : Bool
  checked : Bool
  idAttr : String
  forAttr : String
  containsRadio : Bool
  containsCheckbox : Bool
  containedChecked : Bool
  dataOption : Bool
  dataValue : Bool
  dataAnswer : Bool
  dataSelectedTrue : Bool
  ariaSelectedTrue : Bool
  deriving DecidableEq, Repr

/-- A neutral element: every attribute absent/false.  Concrete pages
override just the fields they need. -/
def blankElem : Elem :=
  ⟨ETag.other, "", "", "", "", "", false, false, false, "", "",
   false, false, false, false, false, false, false, false⟩

/-- Playwright `:has-text("t")`: case-insensitive substring match on the
element text. -/
def hasTextCI (e : Elem) (t : String) : Bool :=
  jsIncludes (jsToLower e.text) (jsToLower t)

/-- Selector `[value*="t" i]`: case-insensitive substring match on the value
attribute. -/
def valueCI (e : Elem) (t : String) : Bool :=
  jsIncludes (jsToLower e.valueAttr) (jsToLower t)

/-- Membership of a token in the class attribute (`.c` selector /
`classList.contains`). -/
def hasClass (e : Elem) (c : String) : Bool :=
  (classTokens e.classAttr.data []).contains c

/-- Selector `[class*="t"]`: substring of the raw class attribute value. -/
def classSub (e : Elem) (t : String) : Bool := jsIncludes e.classAttr t

/-- Snapshot of the page as observed during one iteration of the main
loop.  `h1`/`h2` are the text of the first matching heading (`none`
when the heading or its text is `null`), `visibleBlockSel` the blocking
probe selectors that have a visible match on this page, `evalThrows`
whether the `page.evaluate` inside `getPageContentHash` throws. -/
structure PageView where
  url : String
  pathname : String
  h1 : Option String
  h2 : Option String
  pageTitle : String
  bodyText : String
  elems : List Elem
  visibleBlockSel : List String
  evalThrows : Bool
  deriving DecidableEq, Repr

/-! ## Page fingerprint (`getPageContentHash`, lines 525-539) -/

/-- Texts of all `button` elements on the page, in DOM order (the
`document.querySelectorAll("button")` inside the hash script). -/
def buttonTexts (pv : PageView) : List String :=
  (pv.elems.filter (fun e => e.tag == ETag.button)).map (fun e => e.text)

/-- Function `getPageContentHash`: `pathname|h1|h2|buttons` joined exactly as the
page script does, falling back to the url when `evaluate` throws. -/
def getPageContentHash (pv : PageView) : String :=
  if pv.evalThrows then pv.url
  else
    pv.pathname ++ "|" ++ jsOrOpt pv.h1 "" ++ "|" ++ jsOrOpt pv.h2 ""
      ++ "|" ++ joinComma (buttonTexts pv)

/-! ## Blocker classifier (`checkForBlockers`, lines 589-658) -/

/-- Result record of `checkForBlockers`. -/
structure BlockingResult where
  isBlocked : Bool
  reason : String
  btype : String
  deriving DecidableEq, Repr

/-- Page text plus title, lowercased, as combined in line 595. -/
def combinedText (pv : PageView) : String :=
  jsToLower pv.bodyText ++ " " ++ jsToLower pv.pageTitle

/-- Function `checkForBlockers`: first category of `BLOCKING_PATTERNS` (in table
order) with a matching substring wins; otherwise a visible hit on any
blocking probe selector blocks under `verificationInput`; otherwise not
blocked. -/
def checkForBlockers (pv : PageView) : BlockingResult :=
  let combined := combinedText pv
  match BLOCKING_PATTERNS.find?
      (fun cat => cat.2.any (fun p => jsIncludes combined p)) with
  | some cat => ⟨true, blockReason cat.1, cat.1⟩
  | none =>
    if blockingInputSelectors.any
        (fun s => pv.visibleBlockSel.contains s) then
      ⟨true, "Verification input detected (code entry required)",
       "verificationInput"⟩
    else ⟨false, "", ""⟩

/-! ## End-of-flow classifier (`isEndOfFlow`, lines 551-586) -/

/-- One round of the stop-element probe: `page.$` returns the first
element (in DOM order) matching `button:has-text(p), a:has-text(p)`;
the probe succeeds when that element is visible. -/
def stopElementVisible (pv : PageView) (p : String) : Bool :=
  match pv.elems.find?
      (fun e => (e.tag == ETag.button || e.tag == ETag.anchor)
        && hasTextCI e p) with
  | some e => e.visible
  | none => false

/-- Function `isEndOfFlow`: a visible stop control, or a terminal-confirmation
phrase in the lowercased body text. -/
def isEndOfFlow (pv : PageView) : Bool :=
  STOP_PATTERNS.any (fun p => stopElementVisible pv p)
    || endPatterns.any (fun p => jsIncludes (jsToLower pv.bodyText) p)

/-! ## Navigation actuator (`clickNextButton`, lines 769-845) -/

/-- The five element-shape templates tried for each phrase
(lines 775-781), in order. -/
def nextShapePreds (p : String) : List (Elem → Bool) :=
  [fun e => e.tag == ETag.button && hasTextCI e p,
   fun e => e.tag == ETag.anchor && hasTextCI e p,
   fun e => e.role == "button" && hasTextCI e p,
   fun e => e.tag == ETag.inputTag && e.typeAttr == "submit"
     && valueCI e p,
   fun e => e.tag == ETag.inputTag && e.typeAttr == "button"
     && valueCI e p]

/-- The element text matches some stop pattern (lines 791-792). -/
def isStopText (e : Elem) : Bool :=
  STOP_PATTERNS.any (fun sp => jsIncludes (jsToLower e.text) sp)

/-- One selector probe: `page.$` yields the first matching element; it
is clicked only if visible, enabled and not a stop button, otherwise
the search moves on to the next selector. -/
def tryCandidate (elems : List Elem) (pred : Elem → Bool) :
    Option Elem :=
  match elems.find? pred with
  | some e =>
    if e.visible && e.enabled && !isStopText e then some e else none
  | none => none

/-- The structural fallback selectors (lines 810-823), in order. -/
def fallbackPreds : List (Elem → Bool) :=
  [fun e => e.tag == ETag.button && e.typeAttr == "submit",
   fun e => e.tag == ETag.inputTag && e.typeAttr == "submit",
   fun e => e.tag == ETag.button && hasClass e "primary",
   fun e => e.tag == ETag.button && hasClass e "btn-primary",
   fun e => e.tag == ETag.anchor && hasClass e "btn-primary",
   fun e => e.tag == ETag.button && hasClass e "cta",
   fun e => e.tag == ETag.anchor && hasClass e "cta",
   fun e => e.tag == ETag.button && classSub e "next",
   fun e => e.tag == ETag.button && classSub e "continue",
   fun e => e.tag == ETag.button && classSub e "submit",
   fun e => e.tag == ETag.anchor && classSub e "next",
   fun e => e.tag == ETag.anchor && classSub e "continue"]

/-- Function `clickNextButton`, returning the element that gets clicked (the
source returns `true` exactly when this is `some`): every phrase of
`NEXT_BUTTON_PATTERNS` in priority order, across the five shape
templates, then the structural fallbacks. -/
def clickNextButtonElem (elems : List Elem) : Option Elem :=
  match NEXT_BUTTON_PATTERNS.findSome?
      (fun p => (nextShapePreds p).findSome? (tryCandidate elems)) with
  | some e => some e
  | none => fallbackPreds.findSome? (tryCandidate elems)

/-- Function `clickNextButton` proper: did anything get clicked. -/
def clickNextButton (pv : PageView) : Bool :=
  (clickNextButtonElem pv.elems).isSome

/-! ## Option selector (`selectOptionOnPage`, lines 661-767) -/

/-- The `optionSelectors` list (lines 665-692), one membership
predicate per selector, in order.  (`div[...]:not(button)` puts no real
constraint beyond the `div` tag.) -/
def optionSelPreds : List (Elem → Bool) :=
  [fun e => e.tag == ETag.labelTag && e.containsRadio,
   fun e => e.tag == ETag.labelTag && e.containsCheckbox,
   fun e => e.role == "option",
   fun e => e.role == "radio",
   fun e => e.role == "checkbox",
   fun e => e.dataOption,
   fun e => e.dataValue,
   fun e => e.dataAnswer,
   fun e => hasClass e "option-card",
   fun e => hasClass e "answer-option",
   fun e => hasClass e "choice-card",
   fun e => hasClass e "selection-item",
   fun e => hasClass e "quiz-option",
   fun e => hasClass e "question-option",
   fun e => e.tag == ETag.liTag && classSub e "option",
   fun e => e.tag == ETag.liTag && classSub e "choice",
   fun e => e.tag == ETag.divTag && classSub e "option",
   fun e => e.tag == ETag.divTag && classSub e "choice",
   fun e => e.tag == ETag.button && classSub e "option",
   fun e => e.tag == ETag.button && classSub e "choice",
   fun e => e.tag == ETag.button && classSub e "answer"]

/-- The already-selected test (lines 704-711): a contained
radio/checkbox decides by its checked state, otherwise marker classes
and attributes. -/
def optIsSelected (e : Elem) : Bool :=
  if e.containsRadio || e.containsCheckbox then e.containedChecked
  else
    hasClass e "selected" || hasClass e "active" || e.ariaSelectedTrue
      || e.dataSelectedTrue

/-- The navigation-button test on the lowercased option text
(lines 719-721): exact equality with a next pattern, or containment of
a stop pattern. -/
def optIsNav (lowerText : String) : Bool :=
  NEXT_BUTTON_PATTERNS.any (fun p => lowerText == p)
    || STOP_PATTERNS.any (fun p => jsIncludes lowerText p)

/-- Eligibility of one candidate in the main option loop
(lines 698-727): visible, not selected, not a navigation/stop text, and
text length in [1,100]; the clicked candidate yields its trimmed text
truncated to 50 characters. -/
def optCandidate (e : Elem) : Option String :=
  if !e.visible then none
  else if optIsSelected e then none
  else
    let optionText := jsTrim e.text
    if optIsNav (jsToLower optionText) then none
    else if optionText.length > 100 || optionText.length < 1 then none
    else some (jsTake optionText 50)

/-- The fallback (lines 738-761): the first visible unchecked
radio/checkbox is clicked, preferring its associated `label[for=id]`
as click target and audit text. -/
def optFallback (elems : List Elem) : Option String :=
  (elems.filter (fun e =>
      e.tag == ETag.inputTag
        && (e.typeAttr == "radio" || e.typeAttr == "checkbox")
        && !e.checked)).findSome?
    (fun inp =>
      if !inp.visible then none
      else if inp.idAttr != "" then
        match elems.find? (fun l =>
            l.tag == ETag.labelTag && l.forAttr == inp.idAttr) with
        | some lab =>
          some (jsOr (jsTake (jsTrim lab.text) 50) "Option selected")
        | none => some "Option selected"
      else some "Option selected")

/-- Function `selectOptionOnPage`: scan the option selector families in order,
click the first eligible candidate and return its audit text, falling
back to a bare unchecked radio/checkbox. -/
def selectOptionOnPage (pv : PageView) : Option String :=
  match optionSelPreds.findSome?
      (fun pred => (pv.elems.filter pred).findSome? optCandidate) with
  | some t => some t
  | none => optFallback pv.elems

/-! ## Form autofiller (`autoFillForms`, lines 847-949) -/

/-- Tag of a fillable form control. -/
inductive FTag
  | inputF | textarea
  deriving DecidableEq, Repr

/-- A text-entry field.  Attribute getters return `null` when absent,
hence the `Option`s; `value` is the current `inputValue()`. -/
structure InputField where
  tag : FTag
  typeAttr : Option String
  name : Option String
  id : Option String
  placeholder : Option String
  value : String
  visible : Bool
  deriving DecidableEq, Repr

/-- A select element: the `value` attributes of its options in order
(`none` when absent) and the currently selected value. -/
structure Sel where
  options : List (Option String)
  selectedValue : String
  visible : Bool
  deriving DecidableEq, Repr

/-- The form controls of a page, in DOM order. -/
structure FormPage where
  inputs : List InputField
  selects : List Sel
  deriving DecidableEq, Repr

/-- The CSS filter of the `page.$$` query (line 856): any `textarea`,
and any `input` whose type attribute is not exactly hidden, submit,
button, radio or checkbox. -/
def fillableInput (f : InputField) : Bool :=
  match f.tag with
  | FTag.textarea => true
  | FTag.inputF =>
    !(["hidden", "submit", "button", "radio", "checkbox"].contains
        (f.typeAttr.getD ""))

/-- Merge `{ ...DEFAULT_TEST_DATA, ...this.config.testData }`: object spread;
overridden keys keep their original position, new keys are appended. -/
def mergeTestData (ov : List (String × String)) :
    List (String × String) :=
  DEFAULT_TEST_DATA.map
      (fun kv => (kv.1, (List.lookup kv.1 ov).getD kv.2))
    ++ ov.filter
      (fun kv => !(DEFAULT_TEST_DATA.any (fun d => d.1 == kv.1)))

/-- Access `testData[k]` for the fixed keys used by the fallback
branches (always present after the merge). -/
def tdGet (td : List (String × String)) (k : String) : String :=
  (List.lookup k td).getD ""

/-- The value chosen for one field (lines 874-912): first the
dictionary scan - the first key whose lowercase form is contained in
the field identifier wins - then, if that produced nothing truthy, the
type- and keyword-based fallback chain.  Returns `""` when no rule
applies. -/
def computeFillValue (td : List (String × String)) (f : InputField) :
    String :=
  let identifier :=
    jsToLower (f.name.getD "" ++ f.id.getD "" ++ f.placeholder.getD "")
  let dictVal :=
    match td.find?
        (fun kv => jsIncludes identifier (jsToLower kv.1)) with
    | some kv => kv.2
    | none => ""
  if dictVal != "" then dictVal
  else
    let typ := jsOrOpt f.typeAttr "text"
    if typ == "email" || jsIncludes identifier "email" then
      tdGet td "email"
    else if typ == "tel" || jsIncludes identifier "phone"
        || jsIncludes identifier "tel" then tdGet td "phone"
    else if typ == "date" || jsIncludes identifier "birth"
        || jsIncludes identifier "dob" then tdGet td "dateOfBirth"
    else if jsIncludes identifier "zip"
        || jsIncludes identifier "postal" then tdGet td "zip"
    else if jsIncludes identifier "first"
        && jsIncludes identifier "name" then tdGet td "firstName"
    else if jsIncludes identifier "last"
        && jsIncludes identifier "name" then tdGet td "lastName"
    else if jsIncludes identifier "name" then tdGet td "name"
    else if jsIncludes identifier "city" then tdGet td "city"
    else if jsIncludes identifier "state" then tdGet td "state"
    else if jsIncludes identifier "age" then tdGet td "age"
    else if jsIncludes identifier "height" then tdGet td "height"
    else if jsIncludes identifier "weight" then tdGet td "weight"
    else ""

/-- Effect of `autoFillForms` on one input (lines 859-921): invisible
fields, fields outside the query filter and fields with a non-empty
current value are left alone; otherwise the computed value, when
truthy, is filled in. -/
def fillField (td : List (String × String)) (f : InputField) : InputField :=
  if !fillableInput f then f
  else if !f.visible then f
  else if f.value != "" then f
  else if computeFillValue td f != "" then
    { f with value := computeFillValue td f }
  else f

/-- Effect of `autoFillForms` on one select (lines 924-943): when
visible and with more than one option, the option at index 1 is
selected - provided its value attribute is truthy - regardless of the
current selection. -/
def fillSelect (s : Sel) : Sel :=
  if !s.visible then s
  else if s.options.length > 1 then
    match s.options.get? 1 with
    | some (some v) =>
      if v != "" then { s with selectedValue := v } else s
    | _ => s
  else s

/-- Function `autoFillForms` as a transformation of the page form state (the
returned fill count only feeds progress events). -/
def autoFillForms (td : List (String × String)) (p : FormPage) :
    FormPage :=
  { inputs := p.inputs.map (fillField td),
    selects := p.selects.map fillSelect }

/-! ## Orchestrator (`AutoFlowEvaluator.run`, lines 235-522)

The loop is driven by an environment: one page snapshot per iteration
(the engine only branches on what it observes), a possible browser
launch/connect/goto failure before the loop, and a possible crash of
the settle wait at the end of an iteration (both land in the `catch` of
`run`). -/

/-- Structure `AutoEvalConfig` (lines 16-24). -/
structure AutoEvalConfig where
  startUrl : String
  websiteName : String
  maxSteps : Nat
  viewport : String
  screenshotMode : String
  autoFillForms : Bool
  testData : List (String × String)

/-- The run environment: the external browser behaviour. -/
structure Env where
  launchFail : Option String
  pages : Nat → PageView
  crash : Nat → Option String

/-- A recorded step, keeping the fields the engine computes from its
observations (screenshot, load time and timestamp are time-dependent
and not modelled). -/
structure StepRec where
  stepNumber : Nat
  name : String
  errors : List String
  deriving DecidableEq, Repr

/-- How the main loop ended. -/
inductive TermReason
  | maxSteps | loopDetected | blocked | endOfFlow | noAction | fatal
  deriving DecidableEq, Repr

/-- Steps collected by the loop, the way it ended, and the final value
of the `stepNumber` counter. -/
structure RunResult where
  steps : List StepRec
  reason : TermReason
  stopStep : Nat
  deriving Repr

/-- The step name `h1 || pageTitle || "Step k"` (line 311); `getH1`
trims the heading text and yields `undefined` when there is none. -/
def stepName (k : Nat) (pv : PageView) : String :=
  jsOr (jsOrOpt (pv.h1.map jsTrim) pv.pageTitle)
    ("Step " ++ toString k)

/-- The step record pushed at line 331 (errors start empty). -/
def mkStep (k : Nat) (pv : PageView) : StepRec :=
  { stepNumber := k, name := stepName k pv, errors := [] }

/-- The step the `catch` block synthesizes (lines 436-447). -/
def errStep (k : Nat) (msg : String) : StepRec :=
  { stepNumber := k, name := "Error", errors := [msg] }

/-- The main evaluation loop (lines 278-423), by remaining iterations:
loop-detect, record the step, blocker-check, end-check, the
interaction phase, and the no-action break; a crash of the final
settle wait falls into the `catch`, which appends one error step
numbered `stepNumber + 1`. -/
def runAux (env : Env) :
    Nat → Nat → List String → List StepRec → RunResult
  | 0, sn, _, acc => ⟨acc, TermReason.maxSteps, sn⟩
  | fuel + 1, sn, hashes, acc =>
    let k := sn + 1
    let pv := env.pages k
    let h := getPageContentHash pv
    if hashes.contains h && decide (2 < k) then
      ⟨acc, TermReason.loopDetected, k⟩
    else
      let bc := checkForBlockers pv
      if bc.isBlocked then
        ⟨acc ++ [{ mkStep k pv with
            errors := ["BLOCKED: " ++ bc.reason] }],
         TermReason.blocked, k⟩
      else if isEndOfFlow pv then
        ⟨acc ++ [mkStep k pv], TermReason.endOfFlow, k⟩
      else if (clickNextButtonElem pv.elems).isNone
          && (selectOptionOnPage pv).isNone then
        ⟨acc ++ [mkStep k pv], TermReason.noAction, k⟩
      else
        match env.crash k with
        | some msg =>
          ⟨acc ++ [mkStep k pv, errStep (k + 1) msg],
           TermReason.fatal, k⟩
        | none => runAux env fuel k (h :: hashes) (acc ++ [mkStep k pv])

/-- The whole of `run` up to report construction: a launch/connect/goto
failure lands in the `catch` with `stepNumber` still `0`, otherwise
the main loop runs with `maxSteps` as its bound. -/
def autoEvalRun (cfg : AutoEvalConfig) (env : Env) : RunResult :=
  match env.launchFail with
  | some msg => ⟨[errStep 1 msg], TermReason.fatal, 0⟩
  | none => runAux env cfg.maxSteps 0 [] []

/-- Report status (`partway` models the source literal "partial"). -/
inductive RunStatus
  | completed | partway | failed | blocked
  deriving DecidableEq, Repr

/-- Count `completedSteps` (line 455): steps with an empty error list. -/
def countCompleted (steps : List StepRec) : Nat :=
  (steps.filter (fun s => s.errors.length == 0)).length

/-- Count `failedSteps` (line 456): steps with a non-empty error list. -/
def countFailed (steps : List StepRec) : Nat :=
  (steps.filter (fun s => s.errors.length != 0)).length

/-- Count `blockedSteps` (line 457): steps with a `BLOCKED:`-prefixed error. -/
def countBlocked (steps : List StepRec) : Nat :=
  (steps.filter
    (fun s => s.errors.any (fun e => jsStartsWith e "BLOCKED:"))).length

/-- Status derivation on termination (lines 460-465). -/
def deriveStatus (steps : List StepRec) : RunStatus :=
  if countBlocked steps > 0 then RunStatus.blocked
  else if countFailed steps > 0 then
    (if countCompleted steps > 0 then RunStatus.partway
     else RunStatus.failed)
  else RunStatus.completed

/-- Structure `EvaluationReport`, restricted to the step-derived fields (id,
flow identity, dates, duration and viewport are not modelled). -/
structure Report where
  totalSteps : Nat
  completedSteps : Nat
  failedSteps : Nat
  status : RunStatus
  steps : List StepRec
  deriving DecidableEq, Repr

/-- Report construction (lines 454-480). -/
def mkReport (steps : List StepRec) : Report :=
  { totalSteps := steps.length,
    completedSteps := countCompleted steps,
    failedSteps := countFailed steps,
    status := deriveStatus steps,
    steps := steps }

/-- Function `AutoFlowEvaluator.run`, end to end: loop, catch, report. -/
def autoRunReport (cfg : AutoEvalConfig) (env : Env) : Report :=
  mkReport (autoEvalRun cfg env).steps

/-! ## `DynamicFlowEvaluator.run` (serverless version,
`dynamicEvaluator.ts` lines 422-670) -/

/-- A scripted step definition, restricted to what the run loop
branches on. -/
structure DynStepDef where
  name : String
  continueOnError : Bool
  deriving DecidableEq, Repr

/-- A stored flow. -/
structure DynFlow where
  websiteUrl : String
  steps : List DynStepDef
  deriving DecidableEq, Repr

/-- Environment of a dynamic run: launch failure, and per-step action
outcome (`some msg` when an action of step `k` throws). -/
structure DynEnv where
  launchFail : Option String
  stepErr : Nat → Option String

/-- The per-step loop (lines 470-585): every step is processed (errors
are caught per step and never break the loop); an erroring step is
recorded with the error message and, unless `continueOnError` is set,
counts as failed rather than completed. -/
def dynLoop (env : DynEnv) : List DynStepDef → Nat →
    List StepRec × Nat × Nat
  | [], _ => ([], 0, 0)
  | d :: rest, i =>
    let k := i + 1
    let (steps, c, f) := dynLoop env rest k
    match env.stepErr k with
    | none => (⟨k, d.name, []⟩ :: steps, c + 1, f)
    | some msg =>
      if d.continueOnError then (⟨k, d.name, [msg]⟩ :: steps, c + 1, f)
      else (⟨k, d.name, [msg]⟩ :: steps, c, f + 1)

/-- Function `DynamicFlowEvaluator.run`: a launch failure returns the
synthesized failed report with the single `Initialization` step
(lines 586-618); otherwise the loop runs and the status is derived
from the two counters (line 637). -/
def dynamicRun (flow : DynFlow) (env : DynEnv) : Report :=
  match env.launchFail with
  | some msg =>
    { totalSteps := flow.steps.length, completedSteps := 0,
      failedSteps := 1, status := RunStatus.failed,
      steps := [⟨0, "Initialization", [msg]⟩] }
  | none =>
    let (steps, c, f) := dynLoop env flow.steps 0
    { totalSteps := flow.steps.length, completedSteps := c,
      failedSteps := f,
      status :=
        if f > 0 then
          (if c > 0 then RunStatus.partway else RunStatus.failed)
        else RunStatus.completed,
      steps := steps }

/-! ## Run-trace helpers

State of the loop after a prefix of iterations that all fell through to
the next step, and the decidable per-iteration continuation test. -/

/-- Fingerprints recorded by iterations `1..j` (most recent first,
matching the accumulation order of the loop; only membership is ever
used). -/
def hashesAfter (env : Env) : Nat → List String
  | 0 => []
  | j + 1 => getPageContentHash (env.pages (j + 1)) :: hashesAfter env j

/-- Steps recorded by iterations `1..j` when each fell through. -/
def stepsUpTo (env : Env) : Nat → List StepRec
  | 0 => []
  | j + 1 => stepsUpTo env j ++ [mkStep (j + 1) (env.pages (j + 1))]

/-- The loop-detection condition fires at iteration `k`. -/
def loopHit (env : Env) (k : Nat) : Bool :=
  (hashesAfter env (k - 1)).contains (getPageContentHash (env.pages k))
    && decide (2 < k)

/-- Iteration `k` falls through to the next iteration: no loop break,
no blocker, no end of flow, some action available, no crash. -/
def iterCont (env : Env) (k : Nat) : Bool :=
  let pv := env.pages k
  !loopHit env k && !(checkForBlockers pv).isBlocked
    && !isEndOfFlow pv
    && !((clickNextButtonElem pv.elems).isNone
      && (selectOptionOnPage pv).isNone)
    && (env.crash k).isNone

/-- Iterations `1..k` all fall through. -/
def liveUpTo (env : Env) : Nat → Bool
  | 0 => true
  | k + 1 => liveUpTo env k && iterCont env (k + 1)

theorem iterCont_parts {env : Env} {k : Nat}
    (h : iterCont env k = true) :
    loopHit env k = false
      ∧ (checkForBlockers (env.pages k)).isBlocked = false
      ∧ isEndOfFlow (env.pages k) = false
      ∧ ((clickNextButtonElem (env.pages k).elems).isNone
          && (selectOptionOnPage (env.pages k)).isNone) = false
      ∧ env.crash k = none := by
  simp only [iterCont, Bool.and_eq_true, Bool.not_eq_true',
    Option.isNone_iff_eq_none] at h
  exact ⟨h.1.1.1.1, h.1.1.1.2, h.1.1.2, h.1.2, h.2⟩

/-- One fall-through unfolding of the loop. -/
theorem runAux_cons (env : Env) (fuel j : Nat) (acc : List StepRec)
    (h : iterCont env (j + 1) = true) :
    runAux env (fuel + 1) j (hashesAfter env j) acc =
      runAux env fuel (j + 1) (hashesAfter env (j + 1))
        (acc ++ [mkStep (j + 1) (env.pages (j + 1))]) := by
  obtain ⟨h1, h2, h3, h4, h5⟩ := iterCont_parts h
  rw [loopHit, Nat.add_sub_cancel] at h1
  simp only [runAux, h1, h2, h3, h4, h5, Bool.false_eq_true, if_false,
    hashesAfter]

/-- After `k` fall-through iterations the run continues from the state
`(k, hashesAfter k, stepsUpTo k)` with `maxSteps - k` iterations left. -/
theorem reach_state (cfg : AutoEvalConfig) (env : Env)
    (hl : env.launchFail = none) :
    ∀ k, k ≤ cfg.maxSteps → liveUpTo env k = true →
      autoEvalRun cfg env =
        runAux env (cfg.maxSteps - k) k (hashesAfter env k)
          (stepsUpTo env k) := by
  intro k
  induction k with
  | zero =>
    intro _ _
    simp [autoEvalRun, hl, hashesAfter, stepsUpTo]
  | succ k ih =>
    intro hk hlive
    simp only [liveUpTo, Bool.and_eq_true] at hlive
    obtain ⟨hprev, hcont⟩ := hlive
    rw [ih (Nat.le_of_succ_le hk) hprev]
    have hms : cfg.maxSteps - k = (cfg.maxSteps - (k + 1)) + 1 := by
      omega
    rw [hms, runAux_cons env _ k _ hcont]
    rfl

theorem stepsUpTo_length (env : Env) (j : Nat) :
    (stepsUpTo env j).length = j := by
  induction j with
  | zero => rfl
  | succ j ih => simp [stepsUpTo, ih]

theorem stepsUpTo_stepNumber (env : Env) (j : Nat) :
    ∀ s ∈ stepsUpTo env j, 1 ≤ s.stepNumber ∧ s.stepNumber ≤ j := by
  induction j with
  | zero => intro s hs; simp [stepsUpTo] at hs
  | succ j ih =>
    intro s hs
    simp only [stepsUpTo, List.mem_append, List.mem_singleton] at hs
    rcases hs with hs | rfl
    · have := ih s hs
      omega
    · simp [mkStep]

/-- If the loop ends with `loopDetected`, it did so at a step index
greater than 2. -/
theorem runAux_loop_stop (env : Env) :
    ∀ fuel sn hashes acc,
      (runAux env fuel sn hashes acc).reason =
          TermReason.loopDetected →
      2 < (runAux env fuel sn hashes acc).stopStep := by
  intro fuel
  induction fuel with
  | zero =>
    intro sn hashes acc h
    simp [runAux] at h
  | succ n ih =>
    intro sn hashes acc h
    simp only [runAux] at h ⊢
    by_cases hc : (hashes.contains
        (getPageContentHash (env.pages (sn + 1)))
        && decide (2 < sn + 1)) = true
    · rw [if_pos hc]
      have := (Bool.and_eq_true _ _).mp hc
      exact of_decide_eq_true this.2
    · rw [if_neg hc] at h ⊢
      by_cases hb :
          (checkForBlockers (env.pages (sn + 1))).isBlocked = true
      · rw [if_pos hb] at h
        simp at h
      · rw [if_neg hb] at h ⊢
        by_cases he : isEndOfFlow (env.pages (sn + 1)) = true
        · rw [if_pos he] at h
          simp at h
        · rw [if_neg he] at h ⊢
          by_cases ha :
              ((clickNextButtonElem (env.pages (sn + 1)).elems).isNone
               && (selectOptionOnPage (env.pages (sn + 1))).isNone)
                = true
          · rw [if_pos ha] at h
            simp at h
          · rw [if_neg ha] at h ⊢
            cases hcr : env.crash (sn + 1) with
            | some msg =>
              rw [hcr] at h
              exact TermReason.noConfusion h
            | none =>
              rw [hcr] at h
              exact ih _ _ _ h

/-- The loop plus catch append at most `fuel + 1` steps beyond the
accumulator (the `+ 1` is the catch-synthesized error step). -/
theorem runAux_length (env : Env) :
    ∀ fuel sn hashes acc,
      ((runAux env fuel sn hashes acc).steps).length ≤
        acc.length + fuel + 1 := by
  intro fuel
  induction fuel with
  | zero => intro sn hashes acc; simp [runAux]
  | succ n ih =>
    intro sn hashes acc
    simp only [runAux]
    split
    · show acc.length ≤ acc.length + (n + 1) + 1
      omega
    · split
      · simp <;> omega
      · split
        · simp <;> omega
        · split
          · simp <;> omega
          · split
            · simp <;> omega
            · have := ih (sn + 1)
                (getPageContentHash (env.pages (sn + 1)) :: hashes)
                (acc ++ [mkStep (sn + 1) (env.pages (sn + 1))])
              simp only [List.length_append, List.length_cons,
                List.length_nil] at this ⊢
              omega

/-- Without a crash, the loop appends at most `fuel` steps. -/
theorem runAux_length_noCrash (env : Env)
    (hcr : ∀ k, env.crash k = none) :
    ∀ fuel sn hashes acc,
      ((runAux env fuel sn hashes acc).steps).length ≤
        acc.length + fuel := by
  intro fuel
  induction fuel with
  | zero => intro sn hashes acc; simp [runAux]
  | succ n ih =>
    intro sn hashes acc
    simp only [runAux, hcr]
    split
    · show acc.length ≤ acc.length + (n + 1)
      omega
    · split
      · simp <;> omega
      · split
        · simp <;> omega
        · split
          · simp <;> omega
          · have := ih (sn + 1)
              (getPageContentHash (env.pages (sn + 1)) :: hashes)
              (acc ++ [mkStep (sn + 1) (env.pages (sn + 1))])
            simp only [List.length_append, List.length_cons,
              List.length_nil] at this ⊢
            omega

/-! ## Counting lemmas for the report -/

theorem filter_partition (l : List StepRec) (p : StepRec → Bool) :
    (l.filter p).length + (l.filter (fun s => !(p s))).length =
      l.length := by
  induction l with
  | nil => rfl
  | cons a t ih =>
    cases h : p a <;> simp [List.filter_cons, h] <;> omega

theorem countCompleted_add_countFailed (steps : List StepRec) :
    countCompleted steps + countFailed steps = steps.length := by
  have h := filter_partition steps (fun s => s.errors.length == 0)
  have hc : (steps.filter (fun s => s.errors.length != 0)) =
      (steps.filter (fun s => !(s.errors.length == 0))) := by
    rfl
  rw [countCompleted, countFailed, hc]
  exact h

theorem countCompleted_eq (steps : List StepRec) :
    countCompleted steps =
      (steps.filter (fun s => decide (s.errors = []))).length := by
  unfold countCompleted
  congr 1
  apply List.filter_congr
  intro s _
  cases s.errors <;> simp

theorem countFailed_eq (steps : List StepRec) :
    countFailed steps =
      (steps.filter (fun s => decide (s.errors ≠ []))).length := by
  unfold countFailed
  congr 1
  apply List.filter_congr
  intro s _
  cases s.errors <;> simp

theorem countBlocked_pos_iff (steps : List StepRec) :
    0 < countBlocked steps ↔
      ∃ s ∈ steps, ∃ e ∈ s.errors, jsStartsWith e "BLOCKED:" = true := by
  unfold countBlocked
  rw [List.length_pos_iff_exists_mem]
  constructor
  · rintro ⟨s, hs⟩
    rw [List.mem_filter] at hs
    obtain ⟨e, he, hpre⟩ := List.any_eq_true.mp hs.2
    exact ⟨s, hs.1, e, he, hpre⟩
  · rintro ⟨s, hs, e, he, hpre⟩
    exact ⟨s, List.mem_filter.mpr
      ⟨hs, List.any_eq_true.mpr ⟨e, he, hpre⟩⟩⟩

theorem countFailed_pos_iff (steps : List StepRec) :
    0 < countFailed steps ↔ ∃ s ∈ steps, s.errors ≠ [] := by
  rw [countFailed_eq, List.length_pos_iff_exists_mem]
  constructor
  · rintro ⟨s, hs⟩
    rw [List.mem_filter] at hs
    exact ⟨s, hs.1, of_decide_eq_true hs.2⟩
  · rintro ⟨s, hs, hne⟩
    exact ⟨s, List.mem_filter.mpr ⟨hs, decide_eq_true hne⟩⟩

theorem countCompleted_pos_iff (steps : List StepRec) :
    0 < countCompleted steps ↔ ∃ s ∈ steps, s.errors = [] := by
  rw [countCompleted_eq, List.length_pos_iff_exists_mem]
  constructor
  · rintro ⟨s, hs⟩
    rw [List.mem_filter] at hs
    exact ⟨s, hs.1, of_decide_eq_true hs.2⟩
  · rintro ⟨s, hs, hne⟩
    exact ⟨s, List.mem_filter.mpr ⟨hs, decide_eq_true hne⟩⟩

theorem countFailed_eq_zero_iff (steps : List StepRec) :
    countFailed steps = 0 ↔ ∀ s ∈ steps, s.errors = [] := by
  rw [countFailed_eq, List.length_eq_zero, List.filter_eq_nil]
  constructor
  · intro h s hs
    have := h s hs
    simpa using this
  · intro h s hs
    simp [h s hs]

theorem countCompleted_eq_zero_iff (steps : List StepRec) :
    countCompleted steps = 0 ↔ ∀ s ∈ steps, s.errors ≠ [] := by
  rw [countCompleted_eq, List.length_eq_zero, List.filter_eq_nil]
  constructor
  · intro h s hs
    have := h s hs
    simpa using this
  · intro h s hs
    simp [h s hs]

/-- A step of the run carries a block marker error. -/
def hasBlockMarker (steps : List StepRec) : Prop :=
  ∃ s ∈ steps, ∃ e ∈ s.errors, jsStartsWith e "BLOCKED:" = true

theorem deriveStatus_eq_blocked_iff (steps : List StepRec) :
    deriveStatus steps = RunStatus.blocked ↔ hasBlockMarker steps := by
  unfold deriveStatus
  by_cases hB : countBlocked steps > 0
  · rw [if_pos hB]
    exact ⟨fun _ => (countBlocked_pos_iff steps).mp hB, fun _ => rfl⟩
  · rw [if_neg hB]
    have hnblk : ¬hasBlockMarker steps :=
      fun hm => hB ((countBlocked_pos_iff steps).mpr hm)
    constructor
    · intro h
      by_cases hF : countFailed steps > 0
      · rw [if_pos hF] at h
        by_cases hC : countCompleted steps > 0
        · rw [if_pos hC] at h
          exact RunStatus.noConfusion h
        · rw [if_neg hC] at h
          exact RunStatus.noConfusion h
      · rw [if_neg hF] at h
        exact RunStatus.noConfusion h
    · intro hm
      exact absurd hm hnblk

theorem deriveStatus_eq_failed_iff (steps : List StepRec) :
    deriveStatus steps = RunStatus.failed ↔
      ¬hasBlockMarker steps ∧ steps ≠ []
        ∧ ∀ s ∈ steps, s.errors ≠ [] := by
  unfold deriveStatus
  by_cases hB : countBlocked steps > 0
  · rw [if_pos hB]
    constructor
    · intro h
      exact RunStatus.noConfusion h
    · rintro ⟨hnb, _, _⟩
      exact absurd ((countBlocked_pos_iff steps).mp hB) hnb
  · rw [if_neg hB]
    have hnblk : ¬hasBlockMarker steps :=
      fun hm => hB ((countBlocked_pos_iff steps).mpr hm)
    by_cases hF : countFailed steps > 0
    · rw [if_pos hF]
      by_cases hC : countCompleted steps > 0
      · rw [if_pos hC]
        constructor
        · intro h
          exact RunStatus.noConfusion h
        · rintro ⟨_, _, hall⟩
          obtain ⟨s, hs, hemp⟩ := (countCompleted_pos_iff steps).mp hC
          exact absurd hemp (hall s hs)
      · rw [if_neg hC]
        constructor
        · intro _
          have h0 : countCompleted steps = 0 := Nat.eq_zero_of_not_pos hC
          obtain ⟨s, hs, _⟩ := (countFailed_pos_iff steps).mp hF
          exact ⟨hnblk, List.ne_nil_of_mem hs,
            (countCompleted_eq_zero_iff steps).mp h0⟩
        · intro _
          rfl
    · rw [if_neg hF]
      constructor
      · intro h
        exact RunStatus.noConfusion h
      · rintro ⟨_, hne, hall⟩
        have h0 : countFailed steps = 0 := Nat.eq_zero_of_not_pos hF
        obtain ⟨s, hs⟩ := List.exists_mem_of_ne_nil steps hne
        exact absurd ((countFailed_eq_zero_iff steps).mp h0 s hs)
          (hall s hs)

theorem deriveStatus_eq_partway_iff (steps : List StepRec) :
    deriveStatus steps = RunStatus.partway ↔
      ¬hasBlockMarker steps ∧ (∃ s ∈ steps, s.errors ≠ [])
        ∧ (∃ s ∈ steps, s.errors = []) := by
  unfold deriveStatus
  by_cases hB : countBlocked steps > 0
  · rw [if_pos hB]
    constructor
    · intro h
      exact RunStatus.noConfusion h
    · rintro ⟨hnb, _, _⟩
      exact absurd ((countBlocked_pos_iff steps).mp hB) hnb
  · rw [if_neg hB]
    have hnblk : ¬hasBlockMarker steps :=
      fun hm => hB ((countBlocked_pos_iff steps).mpr hm)
    by_cases hF : countFailed steps > 0
    · rw [if_pos hF]
      by_cases hC : countCompleted steps > 0
      · rw [if_pos hC]
        exact ⟨fun _ => ⟨hnblk, (countFailed_pos_iff steps).mp hF,
          (countCompleted_pos_iff steps).mp hC⟩, fun _ => rfl⟩
      · rw [if_neg hC]
        constructor
        · intro h
          exact RunStatus.noConfusion h
        · rintro ⟨_, _, s, hs, hemp⟩
          exact absurd ((countCompleted_pos_iff steps).mpr
            ⟨s, hs, hemp⟩) hC
    · rw [if_neg hF]
      constructor
      · intro h
        exact RunStatus.noConfusion h
      · rintro ⟨_, ⟨s, hs, hne⟩, _⟩
        exact absurd ((countFailed_pos_iff steps).mpr ⟨s, hs, hne⟩) hF

theorem deriveStatus_eq_completed_iff (steps : List StepRec) :
    deriveStatus steps = RunStatus.completed ↔
      ¬hasBlockMarker steps ∧ ∀ s ∈ steps, s.errors = [] := by
  unfold deriveStatus
  by_cases hB : countBlocked steps > 0
  · rw [if_pos hB]
    constructor
    · intro h
      exact RunStatus.noConfusion h
    · rintro ⟨hnb, _⟩
      exact absurd ((countBlocked_pos_iff steps).mp hB) hnb
  · rw [if_neg hB]
    have hnblk : ¬hasBlockMarker steps :=
      fun hm => hB ((countBlocked_pos_iff steps).mpr hm)
    by_cases hF : countFailed steps > 0
    · rw [if_pos hF]
      obtain ⟨s, hs, hne⟩ := (countFailed_pos_iff steps).mp hF
      by_cases hC : countCompleted steps > 0
      · rw [if_pos hC]
        constructor
        · intro h
          exact RunStatus.noConfusion h
        · rintro ⟨_, hall⟩
          exact absurd (hall s hs) hne
      · rw [if_neg hC]
        constructor
        · intro h
          exact RunStatus.noConfusion h
        · rintro ⟨_, hall⟩
          exact absurd (hall s hs) hne
    · rw [if_neg hF]
      have h0 : countFailed steps = 0 := Nat.eq_zero_of_not_pos hF
      exact ⟨fun _ => ⟨hnblk, (countFailed_eq_zero_iff steps).mp h0⟩,
        fun _ => rfl⟩

/-! ## Claim theorems -/

/-- C10: in every report returned by `AutoFlowEvaluator.run`, the step
counts partition the recorded steps: `completedSteps` is the number of
recorded steps with an empty error list, `failedSteps` the number with
a non-empty one, and `completedSteps + failedSteps = totalSteps` which
is the length of the steps list. -/
theorem autoRun_report_counts (cfg : AutoEvalConfig) (env : Env) :
    (autoRunReport cfg env).completedSteps =
        ((autoRunReport cfg env).steps.filter
          (fun s => decide (s.errors = []))).length
      ∧ (autoRunReport cfg env).failedSteps =
        ((autoRunReport cfg env).steps.filter
          (fun s => decide (s.errors ≠ []))).length
      ∧ (autoRunReport cfg env).completedSteps
          + (autoRunReport cfg env).failedSteps
          = (autoRunReport cfg env).totalSteps
      ∧ (autoRunReport cfg env).totalSteps =
          (autoRunReport cfg env).steps.length := by
  exact ⟨countCompleted_eq _, countFailed_eq _,
    countCompleted_add_countFailed _, rfl⟩

/-- The status assignment exactly as claim C2 words it: `blocked` on
any block-marker error; otherwise `failed` when the number of steps
completed without error is zero; otherwise `partial` when some but not
all recorded steps have errors; otherwise `completed`. -/
def statusPerClaimC2 (steps : List StepRec) : RunStatus :=
  if steps.any (fun s =>
      s.errors.any (fun e => jsStartsWith e "BLOCKED:")) then
    RunStatus.blocked
  else if (steps.filter (fun s => s.errors.isEmpty)).length = 0 then
    RunStatus.failed
  else if (steps.any (fun s => !s.errors.isEmpty))
      && (steps.any (fun s => s.errors.isEmpty)) then
    RunStatus.partway
  else RunStatus.completed

/-- A configuration whose step bound is zero: the loop body never
runs. -/
def cfgEmptyRun : AutoEvalConfig :=
  ⟨"https://example.test/start", "Example", 0, "desktop", "viewport",
   true, []⟩

/-- An unremarkable page. -/
def pvBlank : PageView :=
  ⟨"https://example.test/start", "/start", none, none, "Welcome",
   "welcome", [], [], false⟩

/-- A healthy environment showing `pvBlank` forever. -/
def envEmptyRun : Env := ⟨none, fun _ => pvBlank, fun _ => none⟩

/-- Counterexample to C2 as stated: a run with `maxSteps = 0`
terminates with no recorded steps; zero steps completed without error,
yet the code reports `completed` where the claim prescribes `failed`. -/
theorem autoRun_status_zeroSteps_counterexample :
    (autoRunReport cfgEmptyRun envEmptyRun).steps = []
      ∧ (autoRunReport cfgEmptyRun envEmptyRun).status =
          RunStatus.completed
      ∧ statusPerClaimC2 (autoRunReport cfgEmptyRun envEmptyRun).steps
          = RunStatus.failed := by
  refine ⟨rfl, rfl, rfl⟩

/-- C2 (amended): on termination of every auto-evaluation run the
status is `blocked` iff some recorded step carries a block-marker
error; with no block marker it is `failed` iff there is at least one
recorded step and every recorded step has an error; `partial` iff some
but not all recorded steps have errors; and `completed` iff every
recorded step (possibly none - a run whose bound is 0 records no steps)
is error-free. -/
theorem autoRun_status_characterization (cfg : AutoEvalConfig)
    (env : Env) :
    ((autoRunReport cfg env).status = RunStatus.blocked ↔
        hasBlockMarker (autoRunReport cfg env).steps)
      ∧ ((autoRunReport cfg env).status = RunStatus.failed ↔
        ¬hasBlockMarker (autoRunReport cfg env).steps
          ∧ (autoRunReport cfg env).steps ≠ []
          ∧ ∀ s ∈ (autoRunReport cfg env).steps, s.errors ≠ [])
      ∧ ((autoRunReport cfg env).status = RunStatus.partway ↔
        ¬hasBlockMarker (autoRunReport cfg env).steps
          ∧ (∃ s ∈ (autoRunReport cfg env).steps, s.errors ≠ [])
          ∧ (∃ s ∈ (autoRunReport cfg env).steps, s.errors = []))
      ∧ ((autoRunReport cfg env).status = RunStatus.completed ↔
        ¬hasBlockMarker (autoRunReport cfg env).steps
          ∧ ∀ s ∈ (autoRunReport cfg env).steps, s.errors = []) := by
  exact ⟨deriveStatus_eq_blocked_iff _, deriveStatus_eq_failed_iff _,
    deriveStatus_eq_partway_iff _, deriveStatus_eq_completed_iff _⟩

/-- C1: in every run, if the fingerprint computed at step `k` equals a
fingerprint recorded at an earlier step and `k > 2`, the run terminates
at step `k` with reason loop-detected and no `StepResult` for step `k`
or any later step is in the report; and a recurrence at step index 2 or
below never terminates the run with loop-detected. -/
theorem autoRun_loopDetection :
    (∀ (cfg : AutoEvalConfig) (env : Env) (k : Nat),
      env.launchFail = none →
      2 < k → k ≤ cfg.maxSteps →
      liveUpTo env (k - 1) = true →
      (hashesAfter env (k - 1)).contains
          (getPageContentHash (env.pages k)) = true →
      (autoEvalRun cfg env).reason = TermReason.loopDetected
        ∧ (autoEvalRun cfg env).stopStep = k
        ∧ ∀ s ∈ (autoRunReport cfg env).steps, s.stepNumber < k)
    ∧ ∀ (cfg : AutoEvalConfig) (env : Env),
      (autoEvalRun cfg env).reason = TermReason.loopDetected →
      2 < (autoEvalRun cfg env).stopStep := by
  constructor
  · intro cfg env k hl hk2 hkmax hlive hrec
    have hsteps : (autoRunReport cfg env).steps =
        (autoEvalRun cfg env).steps := rfl
    rw [hsteps]
    obtain ⟨j, rfl⟩ : ∃ j, k = j + 1 := ⟨k - 1, by omega⟩
    rw [Nat.add_sub_cancel] at hlive hrec
    have hreach := reach_state cfg env hl j (by omega) hlive
    obtain ⟨f, hf⟩ : ∃ f, cfg.maxSteps - j = f + 1 :=
      ⟨cfg.maxSteps - j - 1, by omega⟩
    rw [hf] at hreach
    have hcond : ((hashesAfter env j).contains
        (getPageContentHash (env.pages (j + 1)))
        && decide (2 < j + 1)) = true := by
      rw [Bool.and_eq_true]
      exact ⟨hrec, decide_eq_true hk2⟩
    rw [hreach]
    simp only [runAux, hcond, if_true]
    refine ⟨by trivial, by trivial, ?_⟩
    intro s hs
    have := stepsUpTo_stepNumber env j s hs
    omega
  · intro cfg env h
    cases hl : env.launchFail with
    | some msg =>
      rw [autoEvalRun, hl] at h
      exact TermReason.noConfusion h
    | none =>
      rw [autoEvalRun, hl] at h ⊢
      exact runAux_loop_stop env _ _ _ _ h

/-- A plain clickable advance control. -/
def nextBtn : Elem :=
  { blankElem with
    tag := ETag.button
    text := "next"
    visible := true
    enabled := true }

/-- First page of the loop-detection scenario. -/
def pvStepA : PageView :=
  ⟨"u/a", "/a", some "A", none, "t", "x", [nextBtn], [], false⟩

/-- Second page of the loop-detection scenario. -/
def pvStepB : PageView :=
  ⟨"u/b", "/b", some "B", none, "t", "x", [nextBtn], [], false⟩

/-- Environment that revisits the first page at step 3. -/
def envLoop : Env :=
  ⟨none,
   fun k => if k = 1 then pvStepA else
     if k = 2 then pvStepB else pvStepA,
   fun _ => none⟩

/-- A five-step configuration. -/
def cfgLoop : AutoEvalConfig :=
  ⟨"u/a", "w", 5, "desktop", "viewport", true, []⟩

theorem autoRun_loopDetection_witness :
    (autoEvalRun cfgLoop envLoop).reason = TermReason.loopDetected
      ∧ (autoEvalRun cfgLoop envLoop).stopStep = 3
      ∧ ∀ s ∈ (autoRunReport cfgLoop envLoop).steps,
          s.stepNumber < 3 :=
  autoRun_loopDetection.1 cfgLoop envLoop 3 rfl (by decide) (by decide)
    (by decide) (by decide)

/-- A one-step configuration. -/
def cfgMaxOne : AutoEvalConfig :=
  ⟨"u/a", "w", 1, "desktop", "viewport", true, []⟩

/-- An environment whose settle wait crashes during iteration 1. -/
def envCrash1 : Env :=
  ⟨none, fun _ => pvStepA, fun k => if k = 1 then some "boom" else none⟩

/-- Counterexample to C3 as stated: with `maxSteps = 1`, a crash of the
settle wait after step 1 was recorded lands in the `catch`, which
appends a second, synthesized error step - the final report records
2 > 1 steps, and one of them is numbered `maxSteps + 1`. -/
theorem autoRun_step_bound_counterexample :
    cfgMaxOne.maxSteps = 1
      ∧ (autoRunReport cfgMaxOne envCrash1).steps.length = 2
      ∧ (autoRunReport cfgMaxOne envCrash1).steps.map
          (fun s => s.stepNumber) = [1, 2] := by
  refine ⟨rfl, by decide, by decide⟩

/-- C3 (amended): the main loop itself records at most one step per
iteration, so a run records at most `maxSteps` steps when no fatal
session error occurs; a fatal error can append one synthesized error
step, giving the global bound `maxSteps + 1`.  In particular, with
`maxSteps = 3` on a site whose pages all carry the same fingerprint
(and are otherwise interactable), the run stops at step 3 via loop
detection with 2 recorded steps. -/
theorem autoRun_step_bound :
    (∀ (cfg : AutoEvalConfig) (env : Env),
      (autoRunReport cfg env).steps.length ≤ cfg.maxSteps + 1)
    ∧ (∀ (cfg : AutoEvalConfig) (env : Env),
      env.launchFail = none → (∀ k, env.crash k = none) →
      (autoRunReport cfg env).steps.length ≤ cfg.maxSteps)
    ∧ ∀ (cfg : AutoEvalConfig) (env : Env),
      cfg.maxSteps = 3 → env.launchFail = none →
      liveUpTo env 2 = true →
      (∀ k, getPageContentHash (env.pages k) =
        getPageContentHash (env.pages 1)) →
      (autoEvalRun cfg env).reason = TermReason.loopDetected
        ∧ (autoEvalRun cfg env).stopStep = 3
        ∧ (autoRunReport cfg env).steps.length ≤ 2 := by
  refine ⟨?_, ?_, ?_⟩
  · intro cfg env
    cases hl : env.launchFail with
    | some msg =>
      show (autoEvalRun cfg env).steps.length ≤ cfg.maxSteps + 1
      rw [autoEvalRun, hl]
      simp
    | none =>
      show (autoEvalRun cfg env).steps.length ≤ cfg.maxSteps + 1
      rw [autoEvalRun, hl]
      have := runAux_length env cfg.maxSteps 0 [] []
      simpa using this
  · intro cfg env hl hcr
    show (autoEvalRun cfg env).steps.length ≤ cfg.maxSteps
    rw [autoEvalRun, hl]
    have := runAux_length_noCrash env hcr cfg.maxSteps 0 [] []
    simpa using this
  · intro cfg env hms hl hlive hsame
    have hsteps : (autoRunReport cfg env).steps =
        (autoEvalRun cfg env).steps := rfl
    have hreach := reach_state cfg env hl 2 (by omega) hlive
    have h32 : cfg.maxSteps - 2 = 0 + 1 := by omega
    rw [h32] at hreach
    have hcontain : (hashesAfter env 2).contains
        (getPageContentHash (env.pages 3)) = true := by
      have e2 := hsame 2
      have e3 := hsame 3
      simp [hashesAfter, e2, e3]
    have hcond : ((hashesAfter env 2).contains
        (getPageContentHash (env.pages (2 + 1)))
        && decide (2 < 2 + 1)) = true := by
      rw [Bool.and_eq_true]
      exact ⟨hcontain, by decide⟩
    rw [hsteps, hreach]
    simp only [runAux, hcond, if_true]
    refine ⟨by trivial, by trivial, ?_⟩
    rw [stepsUpTo_length]

/-- A three-step configuration for the identical-content scenario. -/
def cfgLoop3 : AutoEvalConfig :=
  ⟨"u/a", "w", 3, "desktop", "viewport", true, []⟩

/-- An environment showing the same interactable page forever. -/
def envSame : Env := ⟨none, fun _ => pvStepA, fun _ => none⟩

theorem autoRun_step_bound_witness :
    ((autoRunReport cfgLoop envLoop).steps.length ≤ cfgLoop.maxSteps)
      ∧ ((autoEvalRun cfgLoop3 envSame).reason =
            TermReason.loopDetected
        ∧ (autoEvalRun cfgLoop3 envSame).stopStep = 3
        ∧ (autoRunReport cfgLoop3 envSame).steps.length ≤ 2) :=
  ⟨autoRun_step_bound.2.1 cfgLoop envLoop rfl (fun _ => rfl),
   autoRun_step_bound.2.2 cfgLoop3 envSame rfl rfl (by decide)
     (fun _ => rfl)⟩

/-- C6 (amended): a `false` return of `clickNextButton` stops the run
only together with an empty option-selection result: if the run reaches
step `k` and neither a next control is clicked nor an option was
selected there (and `k` is not a loop/blocker/end-of-flow stop), the
run terminates at step `k` with reason no-action and records no step
beyond `k`. -/
theorem autoRun_noAction_stops (cfg : AutoEvalConfig) (env : Env)
    (k : Nat) :
    env.launchFail = none →
    0 < k → k ≤ cfg.maxSteps →
    liveUpTo env (k - 1) = true →
    loopHit env k = false →
    (checkForBlockers (env.pages k)).isBlocked = false →
    isEndOfFlow (env.pages k) = false →
    clickNextButtonElem (env.pages k).elems = none →
    selectOptionOnPage (env.pages k) = none →
    (autoEvalRun cfg env).reason = TermReason.noAction
      ∧ (autoEvalRun cfg env).stopStep = k
      ∧ ∀ s ∈ (autoRunReport cfg env).steps, s.stepNumber ≤ k := by
  intro hl hk0 hkmax hlive hloop hblock hend hclick hsel
  have hsteps : (autoRunReport cfg env).steps =
      (autoEvalRun cfg env).steps := rfl
  rw [hsteps]
  obtain ⟨j, rfl⟩ : ∃ j, k = j + 1 := ⟨k - 1, by omega⟩
  rw [Nat.add_sub_cancel] at hlive
  rw [loopHit, Nat.add_sub_cancel] at hloop
  have hreach := reach_state cfg env hl j (by omega) hlive
  obtain ⟨f, hf⟩ : ∃ f, cfg.maxSteps - j = f + 1 :=
    ⟨cfg.maxSteps - j - 1, by omega⟩
  rw [hf] at hreach
  have hact : ((clickNextButtonElem (env.pages (j + 1)).elems).isNone
      && (selectOptionOnPage (env.pages (j + 1))).isNone) = true := by
    rw [Bool.and_eq_true, hclick, hsel]
    exact ⟨rfl, rfl⟩
  rw [hreach]
  simp only [runAux, hloop, hblock, hend, hact, Bool.false_eq_true,
    if_false, if_true]
  refine ⟨by trivial, by trivial, ?_⟩
  intro s hs
  simp only [List.mem_append, List.mem_singleton] at hs
  rcases hs with hs | rfl
  · have := stepsUpTo_stepNumber env j s hs
    omega
  · simp [mkStep]

/-- A bare visible unchecked radio input (clickable by the option
fallback, but not a next control). -/
def radioInp : Elem :=
  { blankElem with
    tag := ETag.inputTag
    typeAttr := "radio"
    visible := true
    enabled := true }

/-- First radio-only page. -/
def pvRadioA : PageView :=
  ⟨"u/r1", "/r1", some "R1", none, "t", "x", [radioInp], [], false⟩

/-- Second radio-only page (different fingerprint). -/
def pvRadioB : PageView :=
  ⟨"u/r2", "/r2", some "R2", none, "t", "x", [radioInp], [], false⟩

/-- A two-step configuration. -/
def cfgTwo : AutoEvalConfig :=
  ⟨"u/r1", "w", 2, "desktop", "viewport", true, []⟩

/-- Environment with radio-only pages on every step. -/
def envRadio : Env :=
  ⟨none, fun k => if k = 1 then pvRadioA else pvRadioB, fun _ => none⟩

/-- Counterexample to C6 as stated: on a radio-only page
`clickNextButton` returns false at step 1, yet the run does not stop
there - an option was selected, so it continues and records step 2. -/
theorem clickNext_false_continues_counterexample :
    clickNextButtonElem (envRadio.pages 1).elems = none
      ∧ selectOptionOnPage (envRadio.pages 1) =
          some "Option selected"
      ∧ (autoRunReport cfgTwo envRadio).steps.map
          (fun s => s.stepNumber) = [1, 2]
      ∧ (autoEvalRun cfgTwo envRadio).reason = TermReason.maxSteps :=
  ⟨by decide, by decide, by decide, by decide⟩

/-- A page with no interactive elements at all. -/
def pvDead : PageView :=
  ⟨"u/d", "/d", some "D", none, "t", "x", [], [], false⟩

/-- Environment showing the dead page forever. -/
def envDead : Env := ⟨none, fun _ => pvDead, fun _ => none⟩

theorem autoRun_noAction_stops_witness :
    (autoEvalRun cfgLoop envDead).reason = TermReason.noAction
      ∧ (autoEvalRun cfgLoop envDead).stopStep = 1
      ∧ ∀ s ∈ (autoRunReport cfgLoop envDead).steps,
          s.stepNumber ≤ 1 :=
  autoRun_noAction_stops cfgLoop envDead 1 rfl (by decide) (by decide)
    rfl (by decide) (by decide) (by decide) rfl rfl

/-- An environment whose browser session fails to launch. -/
def envBoom : Env := ⟨some "boom", fun _ => pvBlank, fun _ => none⟩

/-- Counterexample to C9 as stated: on a launch failure
`AutoFlowEvaluator.run` does yield a one-step failed report, but its
synthesized step is named `Error`, not `Initialization`. -/
theorem fatal_step_name_counterexample :
    (autoRunReport cfgLoop envBoom).status = RunStatus.failed
      ∧ (autoRunReport cfgLoop envBoom).steps.map (fun s => s.name)
          = ["Error"]
      ∧ (autoRunReport cfgLoop envBoom).steps.map (fun s => s.name)
          ≠ ["Initialization"] := by
  refine ⟨by decide, by decide, by decide⟩

/-- C9 (amended): a browser launch/connect failure ends the run
immediately with a status-`failed` report containing exactly one
synthesized failed step whose error list holds the failure message; the
`DynamicFlowEvaluator` names that step `Initialization` (step number
0), while the `AutoFlowEvaluator` catch names it `Error` (step number
1). -/
theorem fatal_session_failure_reports :
    (∀ (flow : DynFlow) (msg : String),
      dynamicRun flow ⟨some msg, fun _ => none⟩ =
        { totalSteps := flow.steps.length, completedSteps := 0,
          failedSteps := 1, status := RunStatus.failed,
          steps := [⟨0, "Initialization", [msg]⟩] })
    ∧ ∀ (cfg : AutoEvalConfig) (env : Env) (msg : String),
      env.launchFail = some msg →
      jsStartsWith msg "BLOCKED:" = false →
      (autoRunReport cfg env).status = RunStatus.failed
        ∧ (autoRunReport cfg env).steps = [⟨1, "Error", [msg]⟩]
        ∧ (autoRunReport cfg env).completedSteps = 0
        ∧ (autoRunReport cfg env).failedSteps = 1 := by
  constructor
  · intro flow msg
    rfl
  · intro cfg env msg hl hpre
    have hrun : autoEvalRun cfg env =
        ⟨[errStep 1 msg], TermReason.fatal, 0⟩ := by
      rw [autoEvalRun, hl]
    refine ⟨?_, ?_, ?_, ?_⟩
    · show deriveStatus (autoEvalRun cfg env).steps = RunStatus.failed
      rw [hrun]
      simp [deriveStatus, countBlocked, countFailed, countCompleted,
        errStep, hpre]
    · show (autoEvalRun cfg env).steps = _
      rw [hrun]
      rfl
    · show countCompleted (autoEvalRun cfg env).steps = 0
      rw [hrun]
      rfl
    · show countFailed (autoEvalRun cfg env).steps = 1
      rw [hrun]
      rfl

/-- A one-step stored flow. -/
def flowOne : DynFlow := ⟨"u/f", [⟨"Visit", false⟩]⟩

theorem fatal_session_failure_reports_witness :
    (dynamicRun flowOne ⟨some "boom", fun _ => none⟩ =
        { totalSteps := 1, completedSteps := 0, failedSteps := 1,
          status := RunStatus.failed,
          steps := [⟨0, "Initialization", ["boom"]⟩] })
      ∧ ((autoRunReport cfgLoop envBoom).status = RunStatus.failed
        ∧ (autoRunReport cfgLoop envBoom).steps =
            [⟨1, "Error", ["boom"]⟩]
        ∧ (autoRunReport cfgLoop envBoom).completedSteps = 0
        ∧ (autoRunReport cfgLoop envBoom).failedSteps = 1) :=
  ⟨fatal_session_failure_reports.1 flowOne "boom",
   fatal_session_failure_reports.2 cfgLoop envBoom "boom" rfl
     (by decide)⟩

/-- Helper: `find?` returns the element at index `i` when the predicate fails
on every earlier element and holds there. -/
theorem find?_at_index {α : Type} (p : α → Bool) :
    ∀ (l : List α) (i : Nat) (h : i < l.length),
      p (l.get ⟨i, h⟩) = true →
      (l.take i).all (fun a => !p a) = true →
      l.find? p = some (l.get ⟨i, h⟩) := by
  intro l
  induction l with
  | nil =>
    intro i h
    simp at h
  | cons a t ih =>
    intro i h hp hall
    cases i with
    | zero =>
      exact List.find?_cons_of_pos _ hp
    | succ n =>
      have hh : (List.take (n + 1) (a :: t)).all (fun a => !p a)
          = true := hall
      rw [List.take_succ_cons, List.all_cons, Bool.and_eq_true] at hh
      have hpa : p a = false := by
        have := hh.1
        simpa using this
      rw [List.find?_cons_of_neg _ (by simp [hpa])]
      exact ih n (by simpa using h) hp hh.2

/-- C4: `checkForBlockers` evaluates the blocking categories in table
order with case-insensitive substring patterns over page text plus
title, first matching category wins; text containing
"enter the 6-digit code" yields the two-factor category; text matching
no pattern with no visible DOM-probe hit yields not blocked. -/
theorem checkForBlockers_spec :
    (∀ pv : PageView,
      jsIncludes (combinedText pv) "enter the 6-digit code" = true →
      checkForBlockers pv =
        ⟨true, "Two-Factor Authentication (2FA) required",
         "twoFactor"⟩)
    ∧ (∀ (pv : PageView) (i : Nat)
        (h : i < BLOCKING_PATTERNS.length),
      ((BLOCKING_PATTERNS.get ⟨i, h⟩).2.any
        (fun p => jsIncludes (combinedText pv) p)) = true →
      ((BLOCKING_PATTERNS.take i).all (fun cat =>
        !(cat.2.any (fun p => jsIncludes (combinedText pv) p))))
          = true →
      checkForBlockers pv =
        ⟨true, blockReason (BLOCKING_PATTERNS.get ⟨i, h⟩).1,
         (BLOCKING_PATTERNS.get ⟨i, h⟩).1⟩)
    ∧ ∀ pv : PageView,
      (BLOCKING_PATTERNS.all (fun cat =>
        !(cat.2.any (fun p => jsIncludes (combinedText pv) p))))
          = true →
      (blockingInputSelectors.all
        (fun s => !(pv.visibleBlockSel.contains s))) = true →
      (checkForBlockers pv).isBlocked = false := by
  have key : ∀ (pv : PageView) (i : Nat)
      (h : i < BLOCKING_PATTERNS.length),
      ((BLOCKING_PATTERNS.get ⟨i, h⟩).2.any
        (fun p => jsIncludes (combinedText pv) p)) = true →
      ((BLOCKING_PATTERNS.take i).all (fun cat =>
        !(cat.2.any (fun p => jsIncludes (combinedText pv) p))))
          = true →
      checkForBlockers pv =
        ⟨true, blockReason (BLOCKING_PATTERNS.get ⟨i, h⟩).1,
         (BLOCKING_PATTERNS.get ⟨i, h⟩).1⟩ := by
    intro pv i h hany htake
    have hfind := find?_at_index
      (fun cat => cat.2.any (fun p => jsIncludes (combinedText pv) p))
      BLOCKING_PATTERNS i h hany htake
    simp only [checkForBlockers]
    rw [hfind]
  refine ⟨?_, key, ?_⟩
  · intro pv hc
    have h6 : jsIncludes (combinedText pv) "6-digit code" = true :=
      jsIncludes_trans hc (by decide)
    have hany : (BLOCKING_PATTERNS.get ⟨0, by decide⟩).2.any
        (fun p => jsIncludes (combinedText pv) p) = true := by
      apply List.any_eq_true.mpr
      exact ⟨"6-digit code", by decide, h6⟩
    have := key pv 0 (by decide) hany (by rfl)
    simpa using this
  · intro pv hall hsel
    have hfind : BLOCKING_PATTERNS.find?
        (fun cat => cat.2.any
          (fun p => jsIncludes (combinedText pv) p)) = none := by
      apply List.find?_eq_none.mpr
      intro cat hmem
      have := List.all_eq_true.mp hall cat hmem
      simp only [Bool.not_eq_true'] at this
      simp [this]
    have hprobe : blockingInputSelectors.any
        (fun s => pv.visibleBlockSel.contains s) = false := by
      rw [List.any_eq_false]
      intro s hmem
      have := List.all_eq_true.mp hsel s hmem
      simpa using this
    simp only [checkForBlockers]
    rw [hfind, hprobe]
    rfl

/-- A page whose body demands a two-factor code. -/
def pv2FA : PageView :=
  ⟨"u/v", "/v", none, none, "t",
   "please enter the 6-digit code", [], [], false⟩

/-- A page showing a security check. -/
def pvCaptcha : PageView :=
  ⟨"u/c", "/c", none, none, "t", "security check now", [], [], false⟩

theorem checkForBlockers_spec_witness :
    checkForBlockers pv2FA =
        ⟨true, "Two-Factor Authentication (2FA) required",
         "twoFactor"⟩
      ∧ checkForBlockers pvCaptcha =
          ⟨true, "CAPTCHA verification required", "captcha"⟩
      ∧ (checkForBlockers pvBlank).isBlocked = false :=
  ⟨checkForBlockers_spec.1 pv2FA (by decide),
   checkForBlockers_spec.2.1 pvCaptcha 3 (by decide) (by decide)
     (by decide),
   checkForBlockers_spec.2.2 pvBlank (by decide) (by decide)⟩

/-- Whatever `tryCandidate` clicks is a visible, enabled member of the
page with no stop-pattern in its text. -/
theorem tryCandidate_some {elems : List Elem} {pred : Elem → Bool}
    {e : Elem} (h : tryCandidate elems pred = some e) :
    e ∈ elems ∧ e.visible = true ∧ e.enabled = true
      ∧ isStopText e = false := by
  unfold tryCandidate at h
  cases hf : elems.find? pred with
  | none =>
    rw [hf] at h
    exact Option.noConfusion h
  | some x =>
    rw [hf] at h
    have h' : (if (x.visible && x.enabled && !isStopText x) = true
        then some x else none) = some e := h
    by_cases hc : (x.visible && x.enabled && !isStopText x) = true
    · rw [if_pos hc] at h'
      obtain rfl : x = e := Option.some.inj h'
      simp only [Bool.and_eq_true, Bool.not_eq_true'] at hc
      exact ⟨List.mem_of_find?_eq_some hf, hc.1.1, hc.1.2, hc.2⟩
    · rw [if_neg hc] at h'
      exact Option.noConfusion h'

/-- Whatever `clickNextButton` clicks is a visible, enabled member of
the page with no stop-pattern in its text. -/
theorem clickNextButtonElem_some {elems : List Elem} {e : Elem}
    (h : clickNextButtonElem elems = some e) :
    e ∈ elems ∧ e.visible = true ∧ e.enabled = true
      ∧ isStopText e = false := by
  unfold clickNextButtonElem at h
  cases hf : NEXT_BUTTON_PATTERNS.findSome?
      (fun p => (nextShapePreds p).findSome? (tryCandidate elems)) with
  | some x =>
    rw [hf] at h
    obtain rfl : x = e := Option.some.inj h
    obtain ⟨p, _, hp⟩ := List.exists_of_findSome?_eq_some hf
    obtain ⟨pred, _, hpred⟩ := List.exists_of_findSome?_eq_some hp
    exact tryCandidate_some hpred
  | none =>
    rw [hf] at h
    obtain ⟨pred, _, hpred⟩ := List.exists_of_findSome?_eq_some h
    exact tryCandidate_some hpred

/-- C5 (amended): a clicked next control never matches a stop pattern
(in particular it is never a control labeled "Sign Up"); and whenever
the visible enabled "Get Started" control is the first button on the
page whose text contains that phrase, it is the control clicked.
`page.$` returns the first DOM match, so a control that merely contains
"get started" earlier in the document can shadow the real one (see the
counterexample). -/
theorem clickNext_priority_and_stop :
    (∀ (elems : List Elem) (e : Elem),
      clickNextButtonElem elems = some e →
      isStopText e = false
        ∧ ∀ sp ∈ STOP_PATTERNS,
            jsIncludes (jsToLower e.text) sp = false)
    ∧ (∀ (elems : List Elem) (e su : Elem),
      clickNextButtonElem elems = some e → su.text = "Sign Up" →
      e ≠ su)
    ∧ ∀ (elems : List Elem) (g : Elem),
      elems.find? (fun e =>
        e.tag == ETag.button && hasTextCI e "get started") = some g →
      g.visible = true → g.enabled = true → isStopText g = false →
      clickNextButtonElem elems = some g := by
  have noStop : ∀ (elems : List Elem) (e : Elem),
      clickNextButtonElem elems = some e →
      isStopText e = false
        ∧ ∀ sp ∈ STOP_PATTERNS,
            jsIncludes (jsToLower e.text) sp = false := by
    intro elems e h
    have hstop := (clickNextButtonElem_some h).2.2.2
    refine ⟨hstop, ?_⟩
    intro sp hsp
    rw [isStopText, List.any_eq_false] at hstop
    have := hstop sp hsp
    simpa using this
  refine ⟨noStop, ?_, ?_⟩
  · intro elems e su h hsu
    intro heq
    have hne := (noStop elems e h).2 "sign up" (by decide)
    rw [heq, hsu] at hne
    exact absurd hne (by decide)
  · intro elems g hfind hv he hstop
    have h1 : tryCandidate elems (fun e =>
        e.tag == ETag.button && hasTextCI e "get started") = some g := by
      unfold tryCandidate
      rw [hfind]
      show (if (g.visible && g.enabled && !isStopText g) = true
          then some g else none) = some g
      rw [hv, he, hstop]
      rfl
    unfold clickNextButtonElem
    rw [NEXT_BUTTON_PATTERNS]
    rw [List.findSome?_cons]
    simp only [nextShapePreds, List.findSome?_cons, h1]

/-- A hidden promotional button whose text contains "get started",
placed before the real controls in the DOM. -/
def gsHidden : Elem :=
  { blankElem with
    tag := ETag.button
    text := "get started offer"
    visible := false
    enabled := true }

/-- The visible enabled Get Started control. -/
def gsBtn : Elem :=
  { blankElem with
    tag := ETag.button
    text := "Get Started"
    visible := true
    enabled := true }

/-- The visible Sign Up control. -/
def suBtn : Elem :=
  { blankElem with
    tag := ETag.button
    text := "Sign Up"
    visible := true
    enabled := true }

/-- A page where a hidden first match shadows the Get Started
control. -/
def pageShadow : List Elem := [gsHidden, gsBtn, suBtn]

/-- A page presenting just the two controls of the claim. -/
def pageGS : List Elem := [gsBtn, suBtn]

/-- Counterexample to C5 as stated: this page presents a visible
enabled control labeled "Get Started" and a visible control labeled
"Sign Up", yet `clickNextButton` clicks nothing at all - the hidden
first match for `button:has-text("get started")` (and for "start")
shadows the real control and no other selector fires. -/
theorem clickNext_getStarted_counterexample :
    gsBtn ∈ pageShadow ∧ gsBtn.text = "Get Started"
      ∧ gsBtn.visible = true ∧ gsBtn.enabled = true
      ∧ suBtn ∈ pageShadow ∧ suBtn.text = "Sign Up"
      ∧ suBtn.visible = true
      ∧ clickNextButtonElem pageShadow = none := by
  refine ⟨by decide, rfl, rfl, rfl, by decide, rfl, rfl, by decide⟩

theorem clickNext_priority_and_stop_witness :
    clickNextButtonElem pageGS = some gsBtn
      ∧ (isStopText gsBtn = false
        ∧ ∀ sp ∈ STOP_PATTERNS,
            jsIncludes (jsToLower gsBtn.text) sp = false)
      ∧ gsBtn ≠ suBtn :=
  ⟨clickNext_priority_and_stop.2.2 pageGS gsBtn (by decide) rfl rfl
     (by decide),
   clickNext_priority_and_stop.1 pageGS gsBtn (by decide),
   clickNext_priority_and_stop.2.1 pageGS gsBtn suBtn (by decide)
     rfl⟩

/-- The matching rule exactly as claim C7 words it: substring
containment in either direction between the field identifier and a
dictionary key. -/
def claimEitherMatch (identifier key : String) : Bool :=
  jsIncludes identifier (jsToLower key)
    || jsIncludes (jsToLower key) identifier

/-- An empty visible text input named `emai`. -/
def emaiField : InputField :=
  ⟨FTag.inputF, some "text", some "emai", none, none, "", true⟩

/-- An empty visible text input named `email`. -/
def emailField : InputField :=
  ⟨FTag.inputF, some "text", some "email", none, none, "", true⟩

/-- Counterexample to C7 as stated: the dictionary key `email`
contains the identifier `emai`, so an either-direction match exists,
yet `autoFillForms` leaves the field empty - the code only tests
whether the identifier contains a key, never the reverse. -/
theorem autoFill_eitherDirection_counterexample :
    (mergeTestData []).any
        (fun kv => claimEitherMatch "emai" kv.1) = true
      ∧ claimEitherMatch "emai" "email" = true
      ∧ fillField (mergeTestData []) emaiField = emaiField
      ∧ (fillField (mergeTestData []) emaiField).value = "" := by
  refine ⟨by decide, by decide, by decide, by decide⟩

/-- C7 (amended): for an empty visible fillable field the identifier
name+id+placeholder is matched against the merged dictionary by
one-directional containment - the first key whose lowercase form is
contained in the identifier wins and its (truthy) value is filled in;
in particular an empty field named `email` receives the dictionary
email value. -/
theorem autoFill_dictionary_rule :
    (∀ (td : List (String × String)) (f : InputField) (k v : String),
      fillableInput f = true → f.visible = true → f.value = "" →
      td.find? (fun kv => jsIncludes
        (jsToLower (f.name.getD "" ++ f.id.getD ""
          ++ f.placeholder.getD "")) (jsToLower kv.1)) = some (k, v) →
      v ≠ "" →
      (fillField td f).value = v)
    ∧ ((fillField (mergeTestData []) emailField).value
        = "test@example.com"
      ∧ tdGet (mergeTestData []) "email" = "test@example.com") := by
  constructor
  · intro td f k v hfl hvis hval hfind hv
    have hcv : computeFillValue td f = v := by
      simp only [computeFillValue]
      rw [hfind]
      rw [if_pos (bne_iff_ne.mpr hv)]
    have hbne : (v != "") = true := bne_iff_ne.mpr hv
    simp [fillField, hfl, hvis, hval, hcv, hbne]
  · exact ⟨by decide, by decide⟩

/-- An empty visible text input named `zipcode`. -/
def zipField : InputField :=
  ⟨FTag.inputF, some "text", some "zipcode", none, none, "", true⟩

theorem autoFill_dictionary_rule_witness :
    (fillField [("zip", "99999")] zipField).value = "99999" :=
  autoFill_dictionary_rule.1 [("zip", "99999")] zipField "zip" "99999"
    rfl rfl rfl (by decide) (by decide)

/-- Helper: `fillField` either leaves the field alone or fills a truthy value
into an empty one. -/
theorem fillField_cases (td : List (String × String))
    (f : InputField) :
    fillField td f = f
      ∨ (f.value = "" ∧ computeFillValue td f ≠ ""
        ∧ fillField td f = { f with value := computeFillValue td f })
    := by
  unfold fillField
  split_ifs with h1 h2 h3 h4
  · left; rfl
  · left; rfl
  · left; rfl
  · right
    refine ⟨?_, bne_iff_ne.mp h4, rfl⟩
    simpa using h3
  · left; rfl

/-- No-clobber for inputs: a non-empty field is never written. -/
theorem fillField_noClobber (td : List (String × String))
    (f : InputField) (hne : f.value ≠ "") : fillField td f = f := by
  rcases fillField_cases td f with h | ⟨hemp, _, _⟩
  · exact h
  · exact absurd hemp hne

theorem fillField_idem (td : List (String × String))
    (f : InputField) :
    fillField td (fillField td f) = fillField td f := by
  rcases fillField_cases td f with h | ⟨hemp, hv, heq⟩
  · rw [h]
    exact h
  · rw [heq]
    apply fillField_noClobber
    show computeFillValue td f ≠ ""
    exact hv

theorem fillSelect_cases (s : Sel) :
    fillSelect s = s
      ∨ ∃ v, v ≠ "" ∧ s.visible = true ∧ s.options.length > 1
        ∧ s.options.get? 1 = some (some v)
        ∧ fillSelect s = { s with selectedValue := v } := by
  by_cases h1 : (!s.visible) = true
  · left
    unfold fillSelect
    rw [if_pos h1]
  · by_cases h2 : s.options.length > 1
    · cases hg : s.options.get? 1 with
      | none =>
        left
        unfold fillSelect
        rw [if_neg h1, if_pos h2, hg]
      | some o =>
        cases o with
        | none =>
          left
          unfold fillSelect
          rw [if_neg h1, if_pos h2, hg]
        | some v =>
          have hval : fillSelect s =
              (if (v != "") = true then { s with selectedValue := v }
               else s) := by
            unfold fillSelect
            rw [if_neg h1, if_pos h2, hg]
          by_cases hv : (v != "") = true
          · right
            refine ⟨v, bne_iff_ne.mp hv, by simpa using h1, h2, rfl,
              ?_⟩
            rw [hval, if_pos hv]
          · left
            rw [hval, if_neg hv]
    · left
      unfold fillSelect
      rw [if_neg h1, if_neg h2]

theorem fillSelect_idem (s : Sel) :
    fillSelect (fillSelect s) = fillSelect s := by
  rcases fillSelect_cases s with h | ⟨v, hv, hvis, hlen, hg, heq⟩
  · rw [h]
    exact h
  · have hn : ¬((!({ s with selectedValue := v } : Sel).visible)
        = true) := by
      simp [hvis]
    have hp : ({ s with selectedValue := v } : Sel).options.length > 1 :=
      hlen
    have hg' : ({ s with selectedValue := v } : Sel).options.get? 1 =
        some (some v) := hg
    have hval2 : fillSelect ({ s with selectedValue := v } : Sel) =
        (if (v != "") = true then
          { ({ s with selectedValue := v } : Sel) with
            selectedValue := v }
         else { s with selectedValue := v }) := by
      unfold fillSelect
      rw [if_neg hn, if_pos hp, hg']
    rw [heq, hval2, if_pos (bne_iff_ne.mpr hv)]

/-- A visible select whose current selection is the third option. -/
def selBad : Sel := ⟨[some "", some "a", some "b"], "b", true⟩

/-- A page holding just that select. -/
def pageSel : FormPage := ⟨[], [selBad]⟩

/-- Counterexample to C8 as stated: the current value `b` of the
select is
non-empty, yet `autoFillForms` writes to it - selects are always reset
to the option at index 1, with no no-clobber check. -/
theorem autoFill_select_clobber_counterexample :
    selBad.selectedValue = "b"
      ∧ (autoFillForms (mergeTestData []) pageSel).selects.map
          (fun s => s.selectedValue) = ["a"]
      ∧ autoFillForms (mergeTestData []) pageSel ≠ pageSel := by
  refine ⟨rfl, by decide, by decide⟩

/-- C8 (amended): `autoFillForms` never writes to an input or textarea
whose current value is non-empty (a field already containing
`foo@bar.com` is left unchanged); selects are re-set to option index 1
regardless of their current selection; and a second invocation on the
same page changes nothing (idempotent on second pass). -/
theorem autoFill_noClobber_idempotent :
    (∀ (td : List (String × String)) (f : InputField),
      f.value ≠ "" → fillField td f = f)
    ∧ ∀ (td : List (String × String)) (p : FormPage),
      autoFillForms td (autoFillForms td p) = autoFillForms td p := by
  constructor
  · exact fillField_noClobber
  · intro td p
    unfold autoFillForms
    simp only [List.map_map]
    congr 1
    · exact List.map_congr_left (fun f _ => fillField_idem td f)
    · exact List.map_congr_left (fun s _ => fillSelect_idem s)

/-- A text input already holding `foo@bar.com`. -/
def fooField : InputField :=
  ⟨FTag.inputF, some "email", some "email", none, none, "foo@bar.com",
   true⟩

/-- A page holding that input and the select. -/
def pageFoo : FormPage := ⟨[fooField], [selBad]⟩

theorem autoFill_noClobber_idempotent_witness :
    fillField (mergeTestData []) fooField = fooField
      ∧ autoFillForms (mergeTestData [])
          (autoFillForms (mergeTestData []) pageFoo)
        = autoFillForms (mergeTestData []) pageFoo :=
  ⟨autoFill_noClobber_idempotent.1 (mergeTestData []) fooField
     (by decide),
   autoFill_noClobber_idempotent.2 (mergeTestData []) pageFoo⟩
